import Mathlib

/-!
Verification of the Ecorating-Admin state core (Redux store, mock API,
pagination hook, persistence bridge) against its specification.

Shallow embedding conventions:
* JS string timestamps produced by `new Date().toISOString()` are modelled by
  the instants they denote, as naturals (milliseconds); the ISO encoding is a
  strictly monotone injection, so comparisons of the strings coincide with
  comparisons of the naturals.
* JS numbers used for prices, totals and ratings are modelled as rationals.
* `Array.prototype.findIndex` followed by an in-place assignment (or a
  `splice`) of the found element is modelled by structural recursion that
  rewrites (or drops) the first matching element.
* Fallible async operations (`ordersAPI.update`) are modelled with `Except`.
-/

/-- Product status, from src/types/index.ts: status is "Active" or "Inactive". -/
inductive ProductStatus where
  | Active
  | Inactive
deriving DecidableEq, Repr

/-- Order status, from src/types/index.ts: "Pending", "Completed" or "Cancelled". -/
inductive OrderStatus where
  | Pending
  | Completed
  | Cancelled
deriving DecidableEq, Repr

/-- Product record, from src/types/index.ts. -/
structure Product where
  id : String
  name : String
  description : String
  price : ℚ
  stock : ℕ
  category : String
  status : ProductStatus
  rating : ℚ
  createdAt : ℕ
  updatedAt : ℕ
deriving DecidableEq, Repr

/-- Order line item (snapshot of a product at order time), from src/types/index.ts. -/
structure OrderItem where
  productId : String
  name : String
  price : ℚ
  quantity : ℕ
deriving DecidableEq, Repr

/-- Order record, from src/types/index.ts. -/
structure Order where
  id : String
  customerName : String
  items : List OrderItem
  total : ℚ
  status : OrderStatus
  createdAt : ℕ
deriving DecidableEq, Repr

/-- Cart entry (UI-local), from src/types/index.ts. -/
structure CartItem where
  product : Product
  quantity : ℕ
deriving DecidableEq, Repr

/-- Products slice state, from productsSlice.ts. -/
structure ProductsState where
  items : List Product
  loading : Bool
  error : Option String
deriving DecidableEq, Repr

/-- Orders slice state, from ordersSlice.ts. -/
structure OrdersState where
  items : List Order
  loading : Bool
  error : Option String
deriving DecidableEq, Repr

/-- Whole Redux state, from store/index.ts (`configureStore` with the two slices). -/
structure RootState where
  products : ProductsState
  orders : OrdersState
deriving DecidableEq, Repr

/-- Rewrite the first element satisfying `p` with `f`; the JS idiom
`const i = xs.findIndex(p); if (i !== -1) xs[i] = f(xs[i])`. -/
def updateFirst (p : α → Bool) (f : α → α) : List α → List α
  | [] => []
  | x :: xs => if p x then f x :: xs else x :: updateFirst p f xs

/-- The synchronous `toggleProductStatus` reducer in productsSlice.ts: find the
product with the given id, flip Active and Inactive, refresh `updatedAt` to the
current time (`new Date().toISOString()`, modelled by the parameter `now`). -/
def toggleProductStatus (items : List Product) (id : String) (now : ℕ) : List Product :=
  updateFirst (fun p => p.id == id)
    (fun p =>
      { p with
        status := if p.status = ProductStatus.Active then ProductStatus.Inactive
                  else ProductStatus.Active,
        updatedAt := now })
    items

/-- Payload returned by the `deleteProduct` thunk in productsSlice.ts:
`{ id, currentStatus: product?.status }`. -/
structure DeletePayload where
  id : String
  currentStatus : Option ProductStatus
deriving DecidableEq, Repr

/-- The `deleteProduct` thunk in productsSlice.ts. After `await productsAPI.delete(id)`
it calls `getState()` and reads the status of the product with the given id from the
store; `stateItems` is the products array returned by that `getState()` call, i.e. the
store contents at the moment the backend call has resolved. -/
def deleteProductThunk (stateItems : List Product) (id : String) : DeletePayload :=
  { id := id
    currentStatus := (stateItems.find? (fun p => p.id == id)).map (fun p => p.status) }

/-- The `deleteProduct.fulfilled` reducer in productsSlice.ts: locate the product by
`payload.id` (`findIndex`, no-op when absent); when `payload.currentStatus === "Active"`
soft delete it (set status Inactive, refresh `updatedAt`, keep it in the array),
otherwise hard delete it (`splice` it out of the array). -/
def deleteProductFulfilled (payload : DeletePayload) (now : ℕ) :
    List Product → List Product
  | [] => []
  | x :: xs =>
    if x.id == payload.id then
      if payload.currentStatus = some ProductStatus.Active then
        { x with status := ProductStatus.Inactive, updatedAt := now } :: xs
      else xs
    else x :: deleteProductFulfilled payload now xs

/-- A complete delete operation with no interleaved mutation: the thunk reads the
same store contents the reducer later updates. -/
def runDeleteProduct (items : List Product) (id : String) (now : ℕ) : List Product :=
  deleteProductFulfilled (deleteProductThunk items id) now items

/-- A complete delete operation with a mutation `mutate` applied to the store during
the backend call latency window: the thunk dispatches against `items`, but by the time
`productsAPI.delete` resolves the store holds `mutate items`, so `getState()` inside
the thunk (and the reducer) see `mutate items`. -/
def runDeleteProductRace (items : List Product) (mutate : List Product → List Product)
    (id : String) (now : ℕ) : List Product :=
  deleteProductFulfilled (deleteProductThunk (mutate items) id) now (mutate items)

/-- A sample product used to instantiate witnesses. -/
def sampleProduct : Product :=
  { id := "p1", name := "Bamboo Brush", description := "eco brush", price := 5,
    stock := 10, category := "Home", status := ProductStatus.Active, rating := 4,
    createdAt := 100, updatedAt := 100 }

/-- The `ordersAPI.update` operation in src/mock/api.ts: look the order up among
the seed copies; when the id is absent, `throw new Error("Order not found")`;
otherwise return the merged record `{...order, ...updates, id}` where the partial
update carries only the new status. -/
def ordersAPIUpdate (seed : List Order) (id : String) (status : OrderStatus) :
    Except String Order :=
  match seed.find? (fun o => o.id == id) with
  | some o => Except.ok { o with status := status, id := id }
  | none => Except.error "Order not found"

/-- The `updateOrderStatus` thunk in ordersSlice.ts: try `ordersAPI.update`
first; on failure look the order up in the current in-memory items (from
`getState()`), return the copy with the new status, and when it is absent there
too `throw new Error("Order not found")`. -/
def updateOrderStatus (seed : List Order) (stateItems : List Order) (id : String)
    (status : OrderStatus) : Except String Order :=
  match ordersAPIUpdate seed id status with
  | Except.ok o => Except.ok o
  | Except.error _ =>
    match stateItems.find? (fun o => o.id == id) with
    | some o => Except.ok { o with status := status }
    | none => Except.error "Order not found"

/-- The `updateOrderStatus.fulfilled` reducer in ordersSlice.ts: `findIndex` on
`payload.id` and replace that slot; no-op when the id is absent. -/
def updateOrderStatusFulfilled (s : OrdersState) (payload : Order) : OrdersState :=
  { s with items := updateFirst (fun o => o.id == payload.id) (fun _ => payload) s.items }

/-- The `updateOrderStatus.rejected` reducer in ordersSlice.ts:
`state.error = action.error.message || "Failed to update order status"`
(the fallback string is used when the thrown message is empty). -/
def updateOrderStatusRejected (s : OrdersState) (msg : String) : OrdersState :=
  { s with error := some (if msg = "" then "Failed to update order status" else msg) }

/-- A complete status-update operation: run the thunk against the seed data and
the current in-memory items, then dispatch fulfilled or rejected. -/
def runUpdateOrderStatus (seed : List Order) (s : OrdersState) (id : String)
    (status : OrderStatus) : OrdersState :=
  match updateOrderStatus seed s.items id status with
  | Except.ok payload => updateOrderStatusFulfilled s payload
  | Except.error msg => updateOrderStatusRejected s msg

/-- Orders.tsx renders the two status-update controls ("Mark Completed",
"Cancel") only under the guard `order.status === "Pending"`. -/
def statusButtonsVisible (o : Order) : Bool :=
  o.status == OrderStatus.Pending

/-- The running cart total in Orders.tsx:
`cart.reduce((sum, item) => sum + item.product.price * item.quantity, 0)`. -/
def cartTotal (cart : List CartItem) : ℚ :=
  cart.foldl (fun sum item => sum + item.product.price * (item.quantity : ℚ)) 0

/-- The order line items built by `handlePlaceOrder` in Orders.tsx: a snapshot of
each cart entry. -/
def orderItemsOfCart (cart : List CartItem) : List OrderItem :=
  cart.map (fun item =>
    { productId := item.product.id, name := item.product.name,
      price := item.product.price, quantity := item.quantity })

/-- The argument of `createOrder` (`Omit<Order, "id" | "createdAt">`). -/
structure NewOrder where
  customerName : String
  items : List OrderItem
  total : ℚ
  status : OrderStatus
deriving DecidableEq, Repr

/-- The payload `handlePlaceOrder` dispatches: trimmed customer name, the cart
snapshot, `total: cartTotal`, status Pending. -/
def placeOrderPayload (cart : List CartItem) (customerName : String) : NewOrder :=
  { customerName := customerName.trim
    items := orderItemsOfCart cart
    total := cartTotal cart
    status := OrderStatus.Pending }

/-- The `ordersAPI.create` operation in src/mock/api.ts: assign a fresh id
(`Date.now().toString()`, modelled by `newId`) and `createdAt`, keep every other
field. Always succeeds. -/
def ordersAPICreate (draft : NewOrder) (newId : String) (now : ℕ) : Order :=
  { id := newId
    customerName := draft.customerName
    items := draft.items
    total := draft.total
    status := draft.status
    createdAt := now }

/-- The sum the specification asserts for an order total:
`item.price * item.quantity` summed over the items. -/
def orderTotalOfItems (items : List OrderItem) : ℚ :=
  (items.map (fun i => i.price * (i.quantity : ℚ))).sum

/-- One slice of the persisted blob; `items` is optional because `loadState`
accesses it as `state.products?.items || []`. -/
structure PersistedSlice (α : Type) where
  items : Option (List α)
deriving DecidableEq, Repr

/-- Shape of the JSON blob under the "reduxState" key as `loadState` consumes
it: both collections optional. -/
structure PersistedShape where
  products : Option (PersistedSlice Product)
  orders : Option (PersistedSlice Order)
deriving DecidableEq, Repr

/-- Content of the "reduxState" key: either JSON that parses to the persisted
shape, or content on which `JSON.parse` (or the shape access) throws. -/
inductive StorageContent where
  | wellFormed (state : PersistedShape)
  | malformed
deriving DecidableEq, Repr

/-- The durable storage cell: `localStorage.getItem("reduxState")` returns null
(`none`) or the stored content. -/
abbrev Storage := Option StorageContent

/-- `saveState` in store/index.ts: serialize only the `items` of each collection
under the single "reduxState" key, fully overwriting prior content. -/
def saveState (root : RootState) : Storage :=
  some (StorageContent.wellFormed
    { products := some { items := some root.products.items }
      orders := some { items := some root.orders.items } })

/-- `loadState` in store/index.ts: absent key or a parse failure yields
`undefined` (`none`); otherwise rebuild both slices from the persisted `items`
(defaulting a missing piece to `[]`), always with `loading := false` and
`error := null`. -/
def loadState (storage : Storage) : Option RootState :=
  match storage with
  | none => none
  | some StorageContent.malformed => none
  | some (StorageContent.wellFormed st) =>
    some
      { products :=
          { items := (st.products.bind (fun sl => sl.items)).getD []
            loading := false
            error := none }
        orders :=
          { items := (st.orders.bind (fun sl => sl.items)).getD []
            loading := false
            error := none } }

/-- Initial products slice state from productsSlice.ts. -/
def initialProductsState : ProductsState :=
  { items := [], loading := false, error := none }

/-- Initial orders slice state from ordersSlice.ts. -/
def initialOrdersState : OrdersState :=
  { items := [], loading := false, error := none }

/-- `configureStore({ ..., preloadedState: loadState() })`: when `loadState`
returns `undefined` each slice starts from its reducer initial state. -/
def configureStoreState (storage : Storage) : RootState :=
  match loadState storage with
  | some st => st
  | none => { products := initialProductsState, orders := initialOrdersState }

/-- The guard in the Dashboard and Orders fetch effects:
`localStorage.getItem("reduxState") !== null`. -/
def hasPersistedRaw (storage : Storage) : Bool :=
  storage.isSome

/-- The Dashboard fetch effect for products:
`if (products.length === 0 && !hasPersisted) dispatch(fetchProducts())`. -/
def dashboardTriggersFetchProducts (storage : Storage) (s : RootState) : Bool :=
  (s.products.items.length == 0) && !(hasPersistedRaw storage)

/-- The Dashboard fetch effect for orders:
`if (orders.length === 0 && !hasPersisted) dispatch(fetchOrders())`. -/
def dashboardTriggersFetchOrders (storage : Storage) (s : RootState) : Bool :=
  (s.orders.items.length == 0) && !(hasPersistedRaw storage)

/-- `usePagination`: `totalPages = Math.ceil(data.length / pageSize)`; on
naturals, for a positive page size, the ceiling of the exact division is
`(len + pageSize - 1) / pageSize`. -/
def totalPages (len pageSize : ℕ) : ℕ :=
  (len + pageSize - 1) / pageSize

/-- `Array.prototype.slice(start, stop)` on an array index range within bounds. -/
def jsSlice (l : List α) (start stop : ℕ) : List α :=
  (l.drop start).take (stop - start)

/-- `usePagination`: the page slice
`data.slice(startIndex, endIndex)` with `startIndex = (currentPage-1)*pageSize`
and `endIndex = startIndex + pageSize`. -/
def paginatedData (data : List α) (pageSize currentPage : ℕ) : List α :=
  jsSlice data ((currentPage - 1) * pageSize) ((currentPage - 1) * pageSize + pageSize)

/-- `usePagination`: `nextPage` increments only while `currentPage < totalPages`. -/
def nextPage (currentPage tp : ℕ) : ℕ :=
  if currentPage < tp then currentPage + 1 else currentPage

/-- `usePagination`: the recompute effect
`if (currentPage > totalPages && totalPages > 0) setCurrentPage(1)`. -/
def recomputePage (currentPage tp : ℕ) : ℕ :=
  if currentPage > tp ∧ tp > 0 then 1 else currentPage

/-- A sample order used to instantiate witnesses. -/
def sampleOrder : Order :=
  { id := "o1", customerName := "Ada",
    items := [{ productId := "p1", name := "Bamboo Brush", price := 5, quantity := 2 }],
    total := 10, status := OrderStatus.Pending, createdAt := 100 }

/-- A sample order already in the Completed terminal status. -/
def completedOrder : Order :=
  { sampleOrder with id := "o2", status := OrderStatus.Completed }

/-- The sample product after a status toggle at time 150. -/
def toggledSample : Product :=
  { sampleProduct with status := ProductStatus.Inactive, updatedAt := 150 }

/-- A one-item cart holding two units of the sample product. -/
def sampleCart : List CartItem :=
  [{ product := sampleProduct, quantity := 2 }]

theorem updateFirst_of_not_found {p : α → Bool} {f : α → α} :
    ∀ {l : List α}, (∀ x ∈ l, p x = false) → updateFirst p f l = l
  | [], _ => rfl
  | x :: xs, h => by
    have hx : p x = false := h x (List.mem_cons_self x xs)
    rw [updateFirst, if_neg (by simp [hx])]
    exact congrArg (x :: ·) (updateFirst_of_not_found fun y hy => h y (List.mem_cons_of_mem x hy))

theorem find?_updateFirst {p : α → Bool} {f : α → α} :
    ∀ {l : List α} {x : α}, l.find? p = some x → (p (f x) = true) →
      (updateFirst p f l).find? p = some (f x)
  | [], _, h, _ => by simp at h
  | y :: ys, x, h, hpf => by
    by_cases hy : p y = true
    · have hxy : y = x := by
        rw [List.find?_cons_of_pos _ hy] at h
        exact Option.some.inj h
      subst hxy
      simp [updateFirst, hy, List.find?_cons_of_pos _ hpf]
    · have hy' : p y = false := by simpa using hy
      rw [List.find?_cons_of_neg _ (by simp [hy'])] at h
      have ih := find?_updateFirst (l := ys) h hpf
      simp [updateFirst, hy', List.find?_cons_of_neg, ih]

theorem updateFirst_length {p : α → Bool} {f : α → α} :
    ∀ l : List α, (updateFirst p f l).length = l.length
  | [] => rfl
  | x :: xs => by
    by_cases hx : p x
    · simp [updateFirst, hx]
    · simp [updateFirst, hx, updateFirst_length xs]

theorem deleteProductFulfilled_active {payload : DeletePayload} {now : ℕ}
    (h : payload.currentStatus = some ProductStatus.Active) :
    ∀ l : List Product,
      deleteProductFulfilled payload now l =
        updateFirst (fun q => q.id == payload.id)
          (fun q => { q with status := ProductStatus.Inactive, updatedAt := now }) l
  | [] => rfl
  | x :: xs => by
    by_cases hx : x.id == payload.id
    · simp [deleteProductFulfilled, updateFirst, hx, h]
    · simp [deleteProductFulfilled, updateFirst, hx,
        deleteProductFulfilled_active h xs]

theorem deleteProductFulfilled_not_active {payload : DeletePayload} {now : ℕ}
    (h : payload.currentStatus ≠ some ProductStatus.Active) :
    ∀ l : List Product,
      deleteProductFulfilled payload now l = l.eraseP (fun q => q.id == payload.id)
  | [] => rfl
  | x :: xs => by
    by_cases hx : x.id == payload.id
    · simp [deleteProductFulfilled, hx, h, List.eraseP_cons_of_pos]
    · have hx' : ¬ ((fun q => q.id == payload.id) x = true) := by simpa using hx
      simp [deleteProductFulfilled, hx, List.eraseP_cons_of_neg hx',
        deleteProductFulfilled_not_active h xs]

/-- C8: toggling a product status twice returns the status to its original
value, and `updatedAt` strictly increases on each of the two toggles, provided
the system clock (which produces the two `new Date()` timestamps `t1`, `t2`) has
advanced strictly past the stored `updatedAt` at each step. -/
theorem toggle_status_twice (items : List Product) (id : String) (p : Product)
    (t1 t2 : ℕ)
    (hfind : items.find? (fun q => q.id == id) = some p)
    (h1 : p.updatedAt < t1) (h2 : t1 < t2) :
    ∃ p1 p2 : Product,
      (toggleProductStatus items id t1).find? (fun q => q.id == id) = some p1 ∧
      (toggleProductStatus (toggleProductStatus items id t1) id t2).find?
          (fun q => q.id == id) = some p2 ∧
      p1.status ≠ p.status ∧
      p2.status = p.status ∧
      p.updatedAt < p1.updatedAt ∧
      p1.updatedAt < p2.updatedAt := by
  have hid : (p.id == id) = true := by simpa using List.find?_some hfind
  refine ⟨_, _, find?_updateFirst hfind (by simpa using hid),
    find?_updateFirst (find?_updateFirst hfind (by simpa using hid)) (by simpa using hid),
    ?_, ?_, ?_, ?_⟩
  · cases hp : p.status <;> simp [hp]
  · cases hp : p.status <;> simp [hp]
  · simpa using h1
  · simpa using h2

/-- C8 witness: concrete run of the double toggle on a one-product store. -/
theorem toggle_status_twice_witness :
    ∃ p1 p2 : Product,
      (toggleProductStatus [sampleProduct] "p1" 200).find? (fun q => q.id == "p1") = some p1 ∧
      (toggleProductStatus (toggleProductStatus [sampleProduct] "p1" 200) "p1" 300).find?
          (fun q => q.id == "p1") = some p2 ∧
      p1.status ≠ sampleProduct.status ∧
      p2.status = sampleProduct.status ∧
      sampleProduct.updatedAt < p1.updatedAt ∧
      p1.updatedAt < p2.updatedAt :=
  toggle_status_twice [sampleProduct] "p1" sampleProduct 200 300 (by decide)
    (by decide) (by decide)

theorem runDelete_cases (items : List Product) (id : String) (now : ℕ)
    (p : Product)
    (hfind : items.find? (fun q => q.id == id) = some p) :
    (p.status = ProductStatus.Active →
      deleteProductFulfilled (deleteProductThunk items id) now items =
        updateFirst (fun q => q.id == id)
          (fun q => { q with status := ProductStatus.Inactive, updatedAt := now })
          items) ∧
    (p.status ≠ ProductStatus.Active →
      deleteProductFulfilled (deleteProductThunk items id) now items =
        items.eraseP (fun q => q.id == id)) := by
  have hthunk : deleteProductThunk items id = ⟨id, some p.status⟩ := by
    simp [deleteProductThunk, hfind]
  constructor
  · intro hA
    rw [hthunk, deleteProductFulfilled_active (by simp [hA]) items]
  · intro hI
    rw [hthunk, deleteProductFulfilled_not_active (by simp [hI]) items]

/-- C1: a delete issued against a product whose status in the store is Active
soft deletes it (status becomes Inactive, `updatedAt` is refreshed, the record
stays in `items` and every other product is untouched), while a delete issued
against a product whose status is already Inactive hard deletes it (the first
record with that id is erased; every other product is untouched). -/
theorem delete_product_policy (items : List Product) (id : String) (now : ℕ)
    (p : Product)
    (hfind : items.find? (fun q => q.id == id) = some p) :
    (p.status = ProductStatus.Active →
      runDeleteProduct items id now =
        updateFirst (fun q => q.id == id)
          (fun q => { q with status := ProductStatus.Inactive, updatedAt := now })
          items ∧
      { p with status := ProductStatus.Inactive, updatedAt := now } ∈
        runDeleteProduct items id now ∧
      (runDeleteProduct items id now).length = items.length) ∧
    (p.status = ProductStatus.Inactive →
      runDeleteProduct items id now = items.eraseP (fun q => q.id == id)) := by
  have hid : (p.id == id) = true := by simpa using List.find?_some hfind
  have hcases := runDelete_cases items id now p hfind
  constructor
  · intro hA
    have heq : runDeleteProduct items id now =
        updateFirst (fun q => q.id == id)
          (fun q => { q with status := ProductStatus.Inactive, updatedAt := now })
          items := hcases.1 hA
    refine ⟨heq, ?_, by rw [heq, updateFirst_length]⟩
    have : (updateFirst (fun q => q.id == id)
        (fun q => { q with status := ProductStatus.Inactive, updatedAt := now })
        items).find? (fun q => q.id == id) =
        some { p with status := ProductStatus.Inactive, updatedAt := now } :=
      find?_updateFirst hfind (by simpa using hid)
    rw [heq]
    exact List.mem_of_find?_eq_some this
  · intro hI
    exact hcases.2 (by simp [hI])

/-- C1 witness: deleting the Active sample product soft deletes it. -/
theorem delete_product_policy_witness :
    runDeleteProduct [sampleProduct] "p1" 200 =
      updateFirst (fun q => q.id == "p1")
        (fun q => { q with status := ProductStatus.Inactive, updatedAt := 200 })
        [sampleProduct] ∧
    { sampleProduct with status := ProductStatus.Inactive, updatedAt := 200 } ∈
      runDeleteProduct [sampleProduct] "p1" 200 ∧
    (runDeleteProduct [sampleProduct] "p1" 200).length = [sampleProduct].length :=
  (delete_product_policy [sampleProduct] "p1" 200 sampleProduct (by decide)).1
    (by decide)

/-- C2: the status-update operation tries the backend first (success exactly
when the id is in seed data, yielding the merged seed record); on backend
failure it falls back to the in-memory order, a copy with the new status; when
the id is absent from memory too the operation is rejected, the error field
records the "Order not found" message, and items and loading are untouched. -/
theorem update_order_status_paths (seed : List Order) (s : OrdersState)
    (id : String) (st : OrderStatus) :
    (∀ o : Order, seed.find? (fun q => q.id == id) = some o →
      updateOrderStatus seed s.items id st = Except.ok { o with status := st, id := id }) ∧
    (seed.find? (fun q => q.id == id) = none →
      ∀ o : Order, s.items.find? (fun q => q.id == id) = some o →
        updateOrderStatus seed s.items id st = Except.ok { o with status := st }) ∧
    (seed.find? (fun q => q.id == id) = none →
      s.items.find? (fun q => q.id == id) = none →
        runUpdateOrderStatus seed s id st = { s with error := some "Order not found" } ∧
        (runUpdateOrderStatus seed s id st).items = s.items ∧
        (runUpdateOrderStatus seed s id st).loading = s.loading) := by
  refine ⟨?_, ?_, ?_⟩
  · intro o ho
    simp [updateOrderStatus, ordersAPIUpdate, ho]
  · intro hseed o ho
    simp [updateOrderStatus, ordersAPIUpdate, hseed, ho]
  · intro hseed hmem
    have hrun : runUpdateOrderStatus seed s id st =
        updateOrderStatusRejected s "Order not found" := by
      simp [runUpdateOrderStatus, updateOrderStatus, ordersAPIUpdate, hseed, hmem]
    rw [hrun]
    refine ⟨?_, rfl, rfl⟩
    rw [updateOrderStatusRejected, if_neg (by decide)]

/-- C2 witness: updating a status on an empty seed and empty store records the
NotFound message and leaves items unchanged. -/
theorem update_order_status_paths_witness :
    runUpdateOrderStatus [] initialOrdersState "o9" OrderStatus.Completed =
      { initialOrdersState with error := some "Order not found" } :=
  ((update_order_status_paths [] initialOrdersState "o9" OrderStatus.Completed).2.2
    rfl rfl).1

/-- C10: when a fulfilled status-update payload matches no order in the
in-memory items, the reducer leaves the whole orders state (items, loading and
error) unchanged. -/
theorem fulfilled_unknown_id_frame (s : OrdersState) (payload : Order)
    (h : ∀ o ∈ s.items, (o.id == payload.id) = false) :
    updateOrderStatusFulfilled s payload = s := by
  have hitems := updateFirst_of_not_found
    (p := fun o => o.id == payload.id) (f := fun _ => payload) h
  simp [updateOrderStatusFulfilled, hitems]

/-- C10 witness: a payload whose id matches nothing in a one-order store leaves
the state untouched. -/
theorem fulfilled_unknown_id_frame_witness :
    updateOrderStatusFulfilled
        { items := [sampleOrder], loading := false, error := none } completedOrder =
      { items := [sampleOrder], loading := false, error := none } :=
  fulfilled_unknown_id_frame
    { items := [sampleOrder], loading := false, error := none } completedOrder
    (by decide)

/-- C3 counterexample: the store operation applied to a Completed seed order
with target Cancelled succeeds and overwrites the terminal status, so the
claimed invariant (terminal statuses are rejected or kept) fails on the code. -/
theorem terminal_status_flips_counterexample :
    completedOrder.status = OrderStatus.Completed ∧
    (runUpdateOrderStatus [completedOrder]
        { items := [completedOrder], loading := false, error := none }
        "o2" OrderStatus.Cancelled).items.find? (fun o => o.id == "o2") =
      some { completedOrder with status := OrderStatus.Cancelled } ∧
    OrderStatus.Cancelled ≠ OrderStatus.Completed := by decide

theorem fallback_update_characterization (seed : List Order) (s : OrdersState)
    (id : String) (st : OrderStatus) (o : Order)
    (hseed : seed.find? (fun q => q.id == id) = none)
    (hmem : s.items.find? (fun q => q.id == id) = some o) :
    runUpdateOrderStatus seed s id st =
      { s with items := (updateFirst (fun q => q.id == id)
          (fun _ => { o with status := st }) s.items) } := by
  have hoid : o.id = id := by simpa using List.find?_some hmem
  have hthunk : updateOrderStatus seed s.items id st =
      Except.ok { o with status := st } := by
    simp [updateOrderStatus, ordersAPIUpdate, hseed, hmem]
  rw [runUpdateOrderStatus, hthunk]
  simp [updateOrderStatusFulfilled, hoid]

/-- C3 amended: the store-level status-update has no terminal-state guard; for
any order found in memory it overwrites the status with the requested value
regardless of the current one. The Pending-only discipline lives in the view
layer, which renders the status-update controls only for Pending orders. -/
theorem terminal_status_guard_amended (seed : List Order) (s : OrdersState)
    (id : String) (st : OrderStatus) (o o' : Order)
    (hseed : seed.find? (fun q => q.id == id) = none)
    (hmem : s.items.find? (fun q => q.id == id) = some o) :
    (runUpdateOrderStatus seed s id st).items.find? (fun q => q.id == id) =
      some { o with status := st } ∧
    (statusButtonsVisible o' = true ↔ o'.status = OrderStatus.Pending) := by
  constructor
  · rw [fallback_update_characterization seed s id st o hseed hmem]
    have h : o.id = id := by simpa using List.find?_some hmem
    exact find?_updateFirst (f := fun _ => ({ o with status := st } : Order)) hmem
      (by simp [h])
  · simp [statusButtonsVisible]

/-- C3 amended witness: a Completed order present only in memory is flipped to
Cancelled by the store operation, and the view controls are hidden for it. -/
theorem terminal_status_guard_amended_witness :
    (runUpdateOrderStatus [] { items := [completedOrder], loading := false, error := none }
        "o2" OrderStatus.Cancelled).items.find? (fun o => o.id == "o2") =
      some { completedOrder with status := OrderStatus.Cancelled } ∧
    (statusButtonsVisible completedOrder = true ↔
      completedOrder.status = OrderStatus.Pending) :=
  terminal_status_guard_amended []
    { items := [completedOrder], loading := false, error := none }
    "o2" OrderStatus.Cancelled completedOrder completedOrder rfl (by decide)

theorem cartTotal_foldl (cart : List CartItem) :
    ∀ a : ℚ, cart.foldl (fun sum item => sum + item.product.price * (item.quantity : ℚ)) a =
      a + orderTotalOfItems (orderItemsOfCart cart) := by
  induction cart with
  | nil => intro a; simp [orderTotalOfItems, orderItemsOfCart]
  | cons c cs ih =>
    intro a
    simp only [List.foldl_cons, ih, orderTotalOfItems, orderItemsOfCart, List.map_cons,
      List.sum_cons]
    ring

/-- C7: an order placed from the cart has `total` equal to the sum of
`item.price * item.quantity` over its items at creation, and the status-update
operation on a session-created order (absent from seed data, hence served by the
in-memory fallback) rewrites only that order and only its status, so the total
is preserved; order records never reference live products, so later price edits
cannot touch them. -/
theorem order_total_invariant (cart : List CartItem) (name newId : String)
    (now : ℕ) (seed : List Order) (s : OrdersState) (id : String)
    (st : OrderStatus) (o : Order) :
    (cart ≠ [] →
      (ordersAPICreate (placeOrderPayload cart name) newId now).total =
        orderTotalOfItems (ordersAPICreate (placeOrderPayload cart name) newId now).items) ∧
    (seed.find? (fun q => q.id == id) = none →
      s.items.find? (fun q => q.id == id) = some o →
      (runUpdateOrderStatus seed s id st).items =
        updateFirst (fun q => q.id == id) (fun _ => { o with status := st }) s.items ∧
      ({ o with status := st } : Order).total = o.total) := by
  constructor
  · intro _
    show cartTotal cart = orderTotalOfItems (orderItemsOfCart cart)
    simpa [cartTotal] using cartTotal_foldl cart 0
  · intro hseed hmem
    refine ⟨?_, rfl⟩
    rw [fallback_update_characterization seed s id st o hseed hmem]

/-- C7 witness: a cart of two units of the sample product yields total 10, and
updating the status of a session-created order keeps its total. -/
theorem order_total_invariant_witness :
    (ordersAPICreate (placeOrderPayload sampleCart "Ada") "o7" 400).total =
      orderTotalOfItems (ordersAPICreate (placeOrderPayload sampleCart "Ada") "o7" 400).items ∧
    ((runUpdateOrderStatus [] { items := [sampleOrder], loading := false, error := none }
        "o1" OrderStatus.Completed).items =
      updateFirst (fun q => q.id == "o1")
        (fun _ => { sampleOrder with status := OrderStatus.Completed })
        [sampleOrder] ∧
    ({ sampleOrder with status := OrderStatus.Completed } : Order).total =
      sampleOrder.total) :=
  ⟨(order_total_invariant sampleCart "Ada" "o7" 400 []
      { items := [sampleOrder], loading := false, error := none }
      "o1" OrderStatus.Completed sampleOrder).1 (by decide),
   (order_total_invariant sampleCart "Ada" "o7" 400 []
      { items := [sampleOrder], loading := false, error := none }
      "o1" OrderStatus.Completed sampleOrder).2 rfl (by decide)⟩

/-- C4: saving any root state and loading it back restores exactly the saved
items arrays for both collections, with loading false and no error, regardless
of the loading and error values at save time. -/
theorem persistence_round_trip (root : RootState) :
    loadState (saveState root) =
      some { products := { items := root.products.items, loading := false, error := none }
             orders := { items := root.orders.items, loading := false, error := none } } :=
  rfl

/-- C5: when the persisted content is present but malformed, `loadState`
degrades to no persisted state, so the store starts from the empty initial
slices; but the fetch effects check only the raw presence of the storage key, so
the fetch from the backend is NOT triggered, leaving the app with no data. -/
theorem malformed_storage_suppresses_fetch :
    loadState (some StorageContent.malformed) = none ∧
    configureStoreState (some StorageContent.malformed) =
      { products := initialProductsState, orders := initialOrdersState } ∧
    dashboardTriggersFetchProducts (some StorageContent.malformed)
      (configureStoreState (some StorageContent.malformed)) = false ∧
    dashboardTriggersFetchOrders (some StorageContent.malformed)
      (configureStoreState (some StorageContent.malformed)) = false := by
  decide

theorem totalPages_eq_ceil (N S : ℕ) (hS : 0 < S) :
    totalPages N S = ⌈(N : ℚ) / (S : ℚ)⌉₊ := by
  have hS' : (0 : ℚ) < (S : ℚ) := by exact_mod_cast hS
  apply le_antisymm
  · rw [show totalPages N S = N ⌈/⌉ S from rfl, ceilDiv_le_iff_le_mul hS]
    have h1 : ((N : ℚ) / (S : ℚ)) ≤ ((⌈(N : ℚ) / (S : ℚ)⌉₊ : ℕ) : ℚ) := Nat.le_ceil _
    have h2 : (N : ℚ) ≤ ((⌈(N : ℚ) / (S : ℚ)⌉₊ : ℕ) : ℚ) * (S : ℚ) := (div_le_iff₀ hS').1 h1
    have h3 : (N : ℚ) ≤ ((S * ⌈(N : ℚ) / (S : ℚ)⌉₊ : ℕ) : ℚ) := by push_cast; linarith
    exact_mod_cast h3
  · rw [Nat.ceil_le, div_le_iff₀ hS']
    have h3 : N ≤ S * (N ⌈/⌉ S) := (ceilDiv_le_iff_le_mul hS).1 le_rfl
    have h4 : (N : ℚ) ≤ ((S * (N ⌈/⌉ S) : ℕ) : ℚ) := by exact_mod_cast h3
    push_cast at h4
    have h5 : ((N ⌈/⌉ S : ℕ) : ℚ) = ((totalPages N S : ℕ) : ℚ) := rfl
    rw [h5] at h4
    linarith [mul_comm (S : ℚ) ((totalPages N S : ℕ) : ℚ)]

/-- C9: for a collection `data` and positive page size `S`, `totalPages` is the
ceiling of the exact division; the current page slice is the index interval
from `(currentPage-1)*S` inclusive to `currentPage*S` exclusive; `nextPage` on
the last page is a no-op; and when `currentPage` exceeds a nonzero `totalPages`
the recompute effect clamps it to 1. -/
theorem pagination_spec {α : Type} (data : List α) (S cp : ℕ)
    (hS : 0 < S) (hcp : 1 ≤ cp) :
    totalPages data.length S = ⌈(data.length : ℚ) / (S : ℚ)⌉₊ ∧
    paginatedData data S cp = (data.drop ((cp - 1) * S)).take (cp * S - (cp - 1) * S) ∧
    (cp = totalPages data.length S → nextPage cp (totalPages data.length S) = cp) ∧
    (cp > totalPages data.length S → 0 < totalPages data.length S →
      recomputePage cp (totalPages data.length S) = 1) := by
  obtain ⟨k, rfl⟩ : ∃ k, cp = k + 1 := ⟨cp - 1, by omega⟩
  refine ⟨totalPages_eq_ceil data.length S hS, ?_, ?_, ?_⟩
  · have h1 : (k + 1) * S - ((k + 1) - 1) * S = S := by
      simp [Nat.succ_mul]
    have h2 : ((k + 1) - 1) * S + S - ((k + 1) - 1) * S = S := by
      simp
    rw [paginatedData, jsSlice, h1, h2]
  · intro h
    simp [nextPage, h]
  · intro h1 h2
    simp [recomputePage, h1, h2]

/-- C9 witness: three items at page size two, on page two. -/
theorem pagination_spec_witness :
    totalPages (List.length [10, 20, 30]) 2 =
      ⌈((List.length [10, 20, 30] : ℕ) : ℚ) / ((2 : ℕ) : ℚ)⌉₊ ∧
    paginatedData [10, 20, 30] 2 2 =
      (List.drop ((2 - 1) * 2) [10, 20, 30]).take (2 * 2 - (2 - 1) * 2) ∧
    (2 = totalPages (List.length [10, 20, 30]) 2 →
      nextPage 2 (totalPages (List.length [10, 20, 30]) 2) = 2) ∧
    (2 > totalPages (List.length [10, 20, 30]) 2 →
      0 < totalPages (List.length [10, 20, 30]) 2 →
      recomputePage 2 (totalPages (List.length [10, 20, 30]) 2) = 1) :=
  pagination_spec [10, 20, 30] 2 2 (by decide) (by decide)

/-- C6 counterexample: the sample product is Active when the delete is
dispatched, yet a status toggle during the backend latency window makes the
operation hard delete it (the claim, which keys the branch on the dispatch-time
status, requires a soft delete that keeps the product in items). -/
theorem delete_snapshot_counterexample :
    sampleProduct.status = ProductStatus.Active ∧
    runDeleteProductRace [sampleProduct]
      (fun items => toggleProductStatus items "p1" 150) "p1" 200 = [] := by
  decide

/-- C6 amended: the soft-vs-hard branch is decided by the product status read
from the store via getState after the backend delete resolves, not by a
dispatch-time snapshot; so the branch follows the mutated state whenever a
mutation lands during the latency window. -/
theorem delete_snapshot_amended (items : List Product)
    (mutate : List Product → List Product) (id : String) (now : ℕ) (p : Product)
    (hfind : (mutate items).find? (fun q => q.id == id) = some p) :
    (p.status = ProductStatus.Active →
      runDeleteProductRace items mutate id now =
        updateFirst (fun q => q.id == id)
          (fun q => { q with status := ProductStatus.Inactive, updatedAt := now })
          (mutate items)) ∧
    (p.status = ProductStatus.Inactive →
      runDeleteProductRace items mutate id now =
        (mutate items).eraseP (fun q => q.id == id)) := by
  have hcases := runDelete_cases (mutate items) id now p hfind
  exact ⟨hcases.1, fun hI => hcases.2 (by simp [hI])⟩

/-- C6 amended witness: the toggled sample product is found Inactive at resolve
time, so the race run hard deletes it. -/
theorem delete_snapshot_amended_witness :
    toggledSample.status = ProductStatus.Inactive ∧
    runDeleteProductRace [sampleProduct]
        (fun items => toggleProductStatus items "p1" 150) "p1" 200 =
      (toggleProductStatus [sampleProduct] "p1" 150).eraseP (fun q => q.id == "p1") :=
  ⟨by decide,
   (delete_snapshot_amended [sampleProduct]
      (fun items => toggleProductStatus items "p1" 150) "p1" 200 toggledSample
      (by decide)).2 (by decide)⟩
